import Mathlib

set_option maxHeartbeats 1000000

/-!
Shallow embedding of the `agent_safety_layers` crate (src/lib.rs).

Rust mutable-reference methods are modelled as state-passing functions:
`fn f(&mut self) -> T` becomes `f : State → T × State` (or `State → State`
when there is no return value).  The `u32`/`i32` values of the reference
test are modelled as `Nat`/`Int` with explicit two's-complement casts at
width 32.
-/

/-- Rust enum `Decision<A>` (src/lib.rs lines 98-105): stores an agent decision,
either an action to perform or a request for an updated model. -/
inductive Decision (A : Type) where
  | Action (a : A) : Decision A
  | RequestModel : Decision A
deriving DecidableEq

/-- Rust struct `AgentZ<M, A, D>` (lines 128-141): an agent that only acts,
assuming its model is perfect.  The four stored operations are pure function
fields; the in-place mutater `fn(&mut M) -> D` becomes `M → M × D` and the
in-place undoer `fn(&mut M, D)` becomes `M → D → M`. -/
structure AgentZ (M A D : Type) where
  model : M
  decider : M → A
  actor : M → A → M
  mutater : M → M × D
  undoer : M → D → M

/-- Rust `AgentZ::update_model` (line 157): `self.model = model`. -/
def AgentZ.update_model {M A D : Type} (z : AgentZ M A D) (m : M) : AgentZ M A D :=
  { z with model := m }

/-- Rust `AgentZ::decide` (line 158): always returns `Action(decider(model))`;
it reads but never mutates the agent, so no updated state is returned. -/
def AgentZ.decide {M A D : Type} (z : AgentZ M A D) : Decision A :=
  Decision.Action (z.decider z.model)

/-- Rust `AgentZ::act` (line 159): `(self.actor)(&mut self.model, action)`. -/
def AgentZ.act {M A D : Type} (z : AgentZ M A D) (a : A) : AgentZ M A D :=
  { z with model := z.actor z.model a }

/-- Rust `AgentZ::mutate` (line 160): mutates the model in place and returns
the delta. -/
def AgentZ.mutate {M A D : Type} (z : AgentZ M A D) : AgentZ M A D × D :=
  ({ z with model := (z.mutater z.model).1 }, (z.mutater z.model).2)

/-- Rust `AgentZ::undo` (line 161): `(self.undoer)(&mut self.model, delta)`. -/
def AgentZ.undo {M A D : Type} (z : AgentZ M A D) (d : D) : AgentZ M A D :=
  { z with model := z.undoer z.model d }

/-- Rust enum `AgentN<M, A, D>` (lines 164-170), indexed here by the number of
successor shells (the Peano numeral the structure encodes).  Rust's `S`
variant holds `Box<AgentS>` where `AgentS` is the single-field struct
`{ core: AgentN }`; the boxed struct is modelled by letting `S` hold the core
directly (`AgentS` below is the corresponding single-field structure on
which the Rust `AgentS` impl is modelled). -/
inductive AgentN (M A D : Type) : Nat → Type where
  | Z (agent : AgentZ M A D) : AgentN M A D 0
  | S (core : AgentN M A D n) : AgentN M A D (n + 1)

/-- Rust struct `AgentS<M, A, D>` (lines 233-237): stores a successor agent
holding its core sub-agent one level shallower. -/
structure AgentS (M A D : Type) (n : Nat) where
  core : AgentN M A D n

/-- Rust `AgentN::z` (lines 173-179): descend through all successor shells to
the unique innermost `AgentZ`. -/
def AgentN.z {M A D : Type} : {n : Nat} → AgentN M A D n → AgentZ M A D
  | _, .Z agent => agent
  | _, .S core => core.z

/-- In Rust, `z()` returns `&mut AgentZ`; applying an in-place operation
through that reference replaces the innermost `AgentZ` and changes nothing
else.  `zmodify` is that combined navigate-and-update step. -/
def AgentN.zmodify {M A D : Type} :
    {n : Nat} → AgentN M A D n → (AgentZ M A D → AgentZ M A D) → AgentN M A D n
  | _, .Z agent, f => .Z (f agent)
  | _, .S core, f => .S (core.zmodify f)

/-- Rust `AgentN::dec` (lines 182-187): drop one successor shell; on `Z` it
returns `self` unchanged. -/
def AgentN.dec {M A D : Type} : {n : Nat} → AgentN M A D n → AgentN M A D (n - 1)
  | _, .Z agent => .Z agent
  | _, .S core => core

/-- Rust `AgentN::inc` (lines 190-192): `AgentN::S(Box::new(AgentS {core: self}))`. -/
def AgentN.inc {M A D : Type} {n : Nat} (a : AgentN M A D n) : AgentN M A D (n + 1) :=
  .S a

/-- Rust `AgentZ::add` (lines 143-151): wrap the base agent in `n` successor
shells, recursing as `S(Box::new(AgentS {core: self.add(n-1)}))`. -/
def AgentZ.add {M A D : Type} (z : AgentZ M A D) : (n : Nat) → AgentN M A D n
  | 0 => .Z z
  | n + 1 => .S (z.add n)

/-- Number of successor shells in the wrapper structure. -/
def AgentN.layers {M A D : Type} : {n : Nat} → AgentN M A D n → Nat
  | _, .Z _ => 0
  | _, .S core => core.layers + 1

/-- Iterated `dec`, as in running `agent.dec()` a number of times. -/
def AgentN.decIter {M A D : Type} : (k : Nat) → {n : Nat} → AgentN M A D n → AgentN M A D (n - k)
  | 0, _, a => a
  | k + 1, _, a => (AgentN.decIter k a).dec

/-- Rust `AgentN::mutate` (lines 219-224): `Z` delegates to `AgentZ::mutate`;
`S` delegates to `AgentS::mutate` (line 295), which is `self.core.mutate()`. -/
def AgentN.mutate {M A D : Type} : {n : Nat} → AgentN M A D n → AgentN M A D n × D
  | _, .Z agent => (.Z (agent.mutate).1, (agent.mutate).2)
  | _, .S core => (.S (core.mutate).1, (core.mutate).2)

/-- Rust `AgentN::update_model` (lines 201-206): `Z` delegates to
`AgentZ::update_model`; `S` delegates to `AgentS::update_model` (line 248),
which is `self.core.z().update_model(model)`. -/
def AgentN.update_model {M A D : Type} :
    {n : Nat} → AgentN M A D n → M → AgentN M A D n
  | _, .Z agent, m => .Z (agent.update_model m)
  | _, .S core, m => .S (core.zmodify (fun z => z.update_model m))

/-- Rust `AgentN::act` (lines 213-218): `Z` delegates to `AgentZ::act`;
`S` delegates to `AgentS::act` (line 294), which is `self.core.z().act(action)`. -/
def AgentN.act {M A D : Type} : {n : Nat} → AgentN M A D n → A → AgentN M A D n
  | _, .Z agent, x => .Z (agent.act x)
  | _, .S core, x => .S (core.zmodify (fun z => z.act x))

/-- Rust `AgentN::undo` (lines 225-230): `Z` delegates to `AgentZ::undo`;
`S` delegates to `AgentS::undo` (line 296), which is `self.core.z().undo(delta)`. -/
def AgentN.undo {M A D : Type} : {n : Nat} → AgentN M A D n → D → AgentN M A D n
  | _, .Z agent, d => .Z (agent.undo d)
  | _, .S core, d => .S (core.zmodify (fun z => z.undo d))

/-- Rust `AgentS::update_model` (line 248). -/
def AgentS.update_model {M A D : Type} {n : Nat} (s : AgentS M A D n) (m : M) : AgentS M A D n :=
  ⟨s.core.zmodify (fun z => z.update_model m)⟩

/-- Rust `AgentS::act` (line 294). -/
def AgentS.act {M A D : Type} {n : Nat} (s : AgentS M A D n) (x : A) : AgentS M A D n :=
  ⟨s.core.zmodify (fun z => z.act x)⟩

/-- Rust `AgentS::mutate` (line 295): `self.core.mutate()`. -/
def AgentS.mutate {M A D : Type} {n : Nat} (s : AgentS M A D n) : AgentS M A D n × D :=
  (⟨(s.core.mutate).1⟩, (s.core.mutate).2)

/-- Rust `AgentS::undo` (line 296): `self.core.z().undo(delta)`. -/
def AgentS.undo {M A D : Type} {n : Nat} (s : AgentS M A D n) (d : D) : AgentS M A D n :=
  ⟨s.core.zmodify (fun z => z.undo d)⟩

/-- Rust constant `MUTATION_LIMIT: u8 = 4` (lines 239-240); the value is used
only as a loop bound, modelled as the natural number 4. -/
def MUTATION_LIMIT : Nat := 4

/-- The probe loop of `AgentS::decide` (lines 269-284), parametric in the
decision procedure `dc` used for the core (the full layered
`self.core.decide()`).  Each iteration mutates the core, re-decides under
the perturbed model, undoes the perturbation, and only then inspects the
probed decision `b`. -/
def probeWith {M A D : Type} [DecidableEq A] {n : Nat}
    (dc : AgentN M A D n → Decision A × AgentN M A D n) :
    Nat → A → AgentN M A D n → Decision A × AgentN M A D n
  | 0, _, core => (.RequestModel, core)
  | fuel + 1, a, core =>
    let p := core.mutate
    let q := dc p.1
    let core3 := q.2.undo p.2
    match q.1 with
    | .RequestModel => probeWith dc fuel a core3
    | .Action b => if a = b then (.Action a, core3) else (.RequestModel, core3)

/-- Body of Rust `AgentS::decide` (lines 249-293), parametric in the decision
procedure used for the core: first the unmutated innermost decision via
`self.core.z().decide()`, then up to `MUTATION_LIMIT` probe iterations,
and `RequestModel` when the probe budget is exhausted. -/
def AgentS.decideWith {M A D : Type} [DecidableEq A] {n : Nat}
    (dc : AgentN M A D n → Decision A × AgentN M A D n) (s : AgentS M A D n) :
    Decision A × AgentS M A D n :=
  match AgentZ.decide s.core.z with
  | .RequestModel => (.RequestModel, s)
  | .Action a =>
    let r := probeWith dc MUTATION_LIMIT a s.core
    (r.1, ⟨r.2⟩)

/-- Rust `AgentN::decide` (lines 207-212): `Z` delegates to `AgentZ::decide`,
`S` delegates to `AgentS::decide`, whose probe loop in turn uses the layered
`decide` of the core one level down.  Defined by recursion on the layer
index so that it reduces definitionally. -/
def AgentN.decide {M A D : Type} [DecidableEq A] :
    {n : Nat} → AgentN M A D n → Decision A × AgentN M A D n :=
  fun {n} =>
    Nat.rec (motive := fun k => AgentN M A D k → Decision A × AgentN M A D k)
      (fun a =>
        match a with
        | .Z agent => (agent.decide, .Z agent))
      (fun _ ih a =>
        match a with
        | .S core =>
          let r := AgentS.decideWith ih ⟨core⟩
          (r.1, .S r.2.core))
      n

/-- Rust `AgentS::decide` (lines 249-293). -/
def AgentS.decide {M A D : Type} [DecidableEq A] {n : Nat} (s : AgentS M A D n) :
    Decision A × AgentS M A D n :=
  AgentS.decideWith AgentN.decide s

/-- The contract assumed of a base agent by the spec: the undoer is the exact
inverse of the mutater (undoing a just-produced delta restores the model). -/
def UndoesMutate {M D : Type} (mtr : M → M × D) (udr : M → D → M) : Prop :=
  ∀ m : M, udr (mtr m).1 (mtr m).2 = m

/-- Two's-complement reinterpretation `u32 as i32` used by the reference test
(lines 313-324); the `u32` value is a natural number below 2 ^ 32. -/
def toI32 (x : Nat) : Int :=
  if x < 2 ^ 31 then (x : Int) else (x : Int) - 2 ^ 32

/-- Two's-complement reinterpretation `i32 as u32` used by the reference test. -/
def toU32 (x : Int) : Nat :=
  (x % 2 ^ 32).toNat

/-- The base agent of the reference test `tests::it_works` (lines 303-325),
with model `(target, current) = (4, 0)`: the decider compares current to
target, the actor adds the action to current, the mutater decrements a
positive target returning delta `-1` (else `0`), and the undoer subtracts
the delta back into the target. -/
def zTest : AgentZ (Nat × Nat) Int Int where
  model := (4, 0)
  decider := fun m => if m.2 < m.1 then 1 else if m.1 < m.2 then -1 else 0
  actor := fun m a => (m.1, toU32 (toI32 m.2 + a))
  mutater := fun m => if 0 < m.1 then ((m.1 - 1, m.2), -1) else ((m.1, m.2), 0)
  undoer := fun m d => (toU32 (toI32 m.1 - d), m.2)

/-! Basic structural lemmas about the single shared base agent. -/

theorem AgentN.z_S {M A D : Type} {n : Nat} (core : AgentN M A D n) :
    (AgentN.S core).z = core.z := rfl

theorem AgentN.z_zmodify {M A D : Type} :
    ∀ {n : Nat} (a : AgentN M A D n) (f : AgentZ M A D → AgentZ M A D),
      (a.zmodify f).z = f a.z
  | _, .Z _, _ => rfl
  | _, .S core, f => AgentN.z_zmodify core f

theorem AgentN.layers_zmodify {M A D : Type} :
    ∀ {n : Nat} (a : AgentN M A D n) (f : AgentZ M A D → AgentZ M A D),
      (a.zmodify f).layers = a.layers
  | _, .Z _, _ => rfl
  | _, .S core, f => by
    show (core.zmodify f).layers + 1 = core.layers + 1
    rw [AgentN.layers_zmodify core f]

theorem AgentN.zmodify_zmodify {M A D : Type} :
    ∀ {n : Nat} (a : AgentN M A D n) (f g : AgentZ M A D → AgentZ M A D),
      (a.zmodify f).zmodify g = a.zmodify (fun z => g (f z))
  | _, .Z _, _, _ => rfl
  | _, .S core, f, g => by
    show AgentN.S ((core.zmodify f).zmodify g) = AgentN.S (core.zmodify fun z => g (f z))
    rw [AgentN.zmodify_zmodify core f g]

theorem AgentN.zmodify_eq_self {M A D : Type} :
    ∀ {n : Nat} (a : AgentN M A D n) (f : AgentZ M A D → AgentZ M A D),
      f a.z = a.z → a.zmodify f = a
  | _, .Z agent, f, h => by
    show AgentN.Z (f agent) = AgentN.Z agent
    rw [show f agent = agent from h]
  | _, .S core, f, h => by
    show AgentN.S (core.zmodify f) = AgentN.S core
    rw [AgentN.zmodify_eq_self core f h]

/-- `AgentN::mutate` is exactly the innermost `AgentZ::mutate`, applied in
place through the `z()` chain. -/
theorem AgentN.mutate_eq_zmodify {M A D : Type} :
    ∀ {n : Nat} (a : AgentN M A D n),
      a.mutate = (a.zmodify (fun z => (AgentZ.mutate z).1), (AgentZ.mutate a.z).2)
  | _, .Z _ => rfl
  | _, .S core => by
    show (AgentN.S (core.mutate).1, (core.mutate).2) = _
    rw [AgentN.mutate_eq_zmodify core]
    rfl

theorem AgentN.undo_eq_zmodify {M A D : Type} :
    ∀ {n : Nat} (a : AgentN M A D n) (d : D),
      a.undo d = a.zmodify (fun z => z.undo d)
  | _, .Z _, _ => rfl
  | _, .S _, _ => rfl

theorem AgentN.act_eq_zmodify {M A D : Type} :
    ∀ {n : Nat} (a : AgentN M A D n) (x : A),
      a.act x = a.zmodify (fun z => z.act x)
  | _, .Z _, _ => rfl
  | _, .S _, _ => rfl

theorem AgentN.update_model_eq_zmodify {M A D : Type} :
    ∀ {n : Nat} (a : AgentN M A D n) (m : M),
      a.update_model m = a.zmodify (fun z => z.update_model m)
  | _, .Z _, _ => rfl
  | _, .S _, _ => rfl

/-- When the undoer exactly inverts the mutater, `mutate` followed by `undo`
with the returned delta restores the whole agent stack. -/
theorem AgentN.undo_mutate {M A D : Type} {n : Nat} (a : AgentN M A D n)
    (h : UndoesMutate a.z.mutater a.z.undoer) :
    (a.mutate).1.undo (a.mutate).2 = a := by
  rw [AgentN.mutate_eq_zmodify, AgentN.undo_eq_zmodify, AgentN.zmodify_zmodify]
  apply AgentN.zmodify_eq_self
  show AgentZ.undo (AgentZ.mutate a.z).1 (AgentZ.mutate a.z).2 = a.z
  have hz := h a.z.model
  cases hm : a.z with
  | mk model decider actor mutater undoer =>
    rw [hm] at hz
    simp [AgentZ.undo, AgentZ.mutate, hz]

/-- The z-level function fields are untouched by `mutate`. -/
theorem AgentN.mutate_z_fields {M A D : Type} {n : Nat} (a : AgentN M A D n) :
    ((a.mutate).1.z.mutater = a.z.mutater) ∧ ((a.mutate).1.z.undoer = a.z.undoer) ∧
      ((a.mutate).1.z.decider = a.z.decider) := by
  rw [AgentN.mutate_eq_zmodify]
  rw [AgentN.z_zmodify]
  exact ⟨rfl, rfl, rfl⟩

/-- The probe loop never commits any action other than the original one. -/
theorem probeWith_fst {M A D : Type} [DecidableEq A] {n : Nat}
    (dc : AgentN M A D n → Decision A × AgentN M A D n)
    (fuel : Nat) (x : A) (core : AgentN M A D n) (y : A)
    (h : (probeWith dc fuel x core).1 = Decision.Action y) : y = x := by
  induction fuel generalizing core with
  | zero => exact absurd h (by simp [probeWith])
  | succ fuel ih =>
    simp only [probeWith] at h
    cases hq : (dc (core.mutate).1).1 with
    | RequestModel =>
      simp only [hq] at h
      exact ih _ h
    | Action b =>
      simp only [hq] at h
      by_cases hxb : x = b
      · simp only [hxb, if_pos rfl] at h
        cases h
        exact hxb.symm
      · rw [if_neg hxb] at h
        exact absurd h (by simp)

/-- Probe iterations restore the core exactly when the undoer inverts the
mutater and the core decision procedure itself preserves such cores. -/
theorem probeWith_snd {M A D : Type} [DecidableEq A] {n : Nat}
    (dc : AgentN M A D n → Decision A × AgentN M A D n)
    (hdc : ∀ c : AgentN M A D n, UndoesMutate c.z.mutater c.z.undoer → (dc c).2 = c)
    (fuel : Nat) (x : A) (core : AgentN M A D n)
    (h : UndoesMutate core.z.mutater core.z.undoer) :
    (probeWith dc fuel x core).2 = core := by
  induction fuel generalizing core with
  | zero => rfl
  | succ fuel ih =>
    have hf := AgentN.mutate_z_fields core
    have h1 : UndoesMutate (core.mutate).1.z.mutater (core.mutate).1.z.undoer := by
      rw [hf.1, hf.2.1]; exact h
    have h3 : (dc (core.mutate).1).2.undo (core.mutate).2 = core := by
      rw [hdc _ h1]
      exact AgentN.undo_mutate core h
    simp only [probeWith]
    cases hq : (dc (core.mutate).1).1 with
    | RequestModel =>
      simp only [hq, h3]
      exact ih _ h
    | Action b =>
      simp only [hq, h3]
      by_cases hxb : x = b
      · simp [hxb]
      · simp [hxb]

/-- With an exactly-inverting undoer, `decide` leaves the whole agent stack
unchanged: every probe is strictly undone before the call returns. -/
theorem AgentN.decide_snd {M A D : Type} [DecidableEq A] :
    ∀ {n : Nat} (a : AgentN M A D n),
      UndoesMutate a.z.mutater a.z.undoer → (a.decide).2 = a := by
  intro n
  induction n with
  | zero =>
    intro a h
    cases a with
    | Z agent => rfl
  | succ n ih =>
    intro a h
    cases a with
    | S core =>
      have h' : UndoesMutate core.z.mutater core.z.undoer := h
      have hp := probeWith_snd (AgentN.decide) (fun c hc => ih c hc) MUTATION_LIMIT
        (core.z.decider core.z.model) core h'
      show AgentN.S (probeWith AgentN.decide MUTATION_LIMIT
        (core.z.decider core.z.model) core).2 = AgentN.S core
      rw [hp]

/-- Any action committed by a layered `decide` is the unmutated innermost
base decision on the current model. -/
theorem AgentN.decide_action {M A D : Type} [DecidableEq A] :
    ∀ {n : Nat} (a : AgentN M A D n) (y : A),
      (a.decide).1 = Decision.Action y → y = a.z.decider a.z.model := by
  intro n
  cases n with
  | zero =>
    intro a y h
    cases a with
    | Z agent =>
      have h2 : Decision.Action (agent.decider agent.model) = Decision.Action y := h
      cases h2
      rfl
  | succ n =>
    intro a y h
    cases a with
    | S core =>
      have h' : (probeWith AgentN.decide MUTATION_LIMIT
          (core.z.decider core.z.model) core).1 = Decision.Action y := h
      exact probeWith_fst _ _ _ _ _ h'

/-! Structural lemmas about `add`, `dec`, `inc` and `layers`. -/

theorem AgentN.dec_add {M A D : Type} (z : AgentZ M A D) :
    ∀ m : Nat, (z.add m).dec = z.add (m - 1)
  | 0 => rfl
  | _ + 1 => rfl

theorem AgentN.decIter_add {M A D : Type} (z : AgentZ M A D) :
    ∀ (k n : Nat), AgentN.decIter k (z.add n) = z.add (n - k)
  | 0, _ => rfl
  | k + 1, n => by
    show (AgentN.decIter k (z.add n)).dec = z.add (n - (k + 1))
    rw [AgentN.decIter_add z k n]
    exact AgentN.dec_add z (n - k)

theorem AgentN.layers_add {M A D : Type} (z : AgentZ M A D) :
    ∀ n : Nat, (z.add n).layers = n
  | 0 => rfl
  | n + 1 => by
    show (z.add n).layers + 1 = n + 1
    rw [AgentN.layers_add z n]

theorem AgentN.z_add {M A D : Type} (z : AgentZ M A D) :
    ∀ n : Nat, (z.add n).z = z
  | 0 => rfl
  | n + 1 => AgentN.z_add z n

theorem AgentN.zmodify_add {M A D : Type} (z : AgentZ M A D) (f : AgentZ M A D → AgentZ M A D) :
    ∀ n : Nat, (z.add n).zmodify f = (f z).add n
  | 0 => rfl
  | n + 1 => by
    show AgentN.S ((z.add n).zmodify f) = AgentN.S ((f z).add n)
    rw [AgentN.zmodify_add z f n]

/-- A minimal concrete base agent used to instantiate the hypotheses of the
general theorems: identity decider, mutater that returns the model unchanged,
undoer that returns it unchanged. -/
def trivZ : AgentZ Nat Nat Unit where
  model := 0
  decider := fun m => m
  actor := fun m a => m + a
  mutater := fun m => (m, ())
  undoer := fun m _ => m

/-- C1: for every successor-layer agent whose innermost base decision on the
current model is `Action a`, `decide` runs the probe loop of at most
`MUTATION_LIMIT = 4` iterations; each iteration calls `core.mutate()`, then
the full layered `core.decide()`, then `core.undo(delta)` before inspecting
the probed decision `b`; if `b` agrees with `a` it returns `Action a`, if it
is a different action it returns `RequestModel` immediately, if it is
`RequestModel` the loop continues, and an exhausted probe budget returns
`RequestModel`, never the original action. -/
theorem agentS_decide_probe_loop {M A D : Type} [DecidableEq A] {n : Nat}
    (s : AgentS M A D n) (a : A)
    (h : AgentZ.decide s.core.z = Decision.Action a) :
    MUTATION_LIMIT = 4 ∧
    s.decide = (let r := probeWith AgentN.decide MUTATION_LIMIT a s.core;
      (r.1, AgentS.mk r.2)) ∧
    (∀ core : AgentN M A D n,
      probeWith AgentN.decide 0 a core = (Decision.RequestModel, core)) ∧
    (∀ (fuel : Nat) (core : AgentN M A D n),
      ((AgentN.decide (core.mutate).1).1 = Decision.RequestModel →
        probeWith AgentN.decide (fuel + 1) a core =
          probeWith AgentN.decide fuel a
            ((AgentN.decide (core.mutate).1).2.undo (core.mutate).2)) ∧
      ((AgentN.decide (core.mutate).1).1 = Decision.Action a →
        probeWith AgentN.decide (fuel + 1) a core =
          (Decision.Action a, (AgentN.decide (core.mutate).1).2.undo (core.mutate).2)) ∧
      (∀ b : A, (AgentN.decide (core.mutate).1).1 = Decision.Action b → b ≠ a →
        probeWith AgentN.decide (fuel + 1) a core =
          (Decision.RequestModel, (AgentN.decide (core.mutate).1).2.undo (core.mutate).2))) := by
  refine ⟨rfl, ?_, fun core => rfl, ?_⟩
  · show AgentS.decideWith AgentN.decide s = _
    rw [AgentS.decideWith, h]
  · intro fuel core
    refine ⟨?_, ?_, ?_⟩
    · intro hq
      simp only [probeWith, hq]
    · intro hq
      simp [probeWith, hq]
    · intro b hq hb
      simp only [probeWith, hq]
      rw [if_neg (Ne.symm hb)]

/-- Witness for C1: the one-layer stack over the trivial base agent, whose
innermost base decision is `Action 0`. -/
theorem agentS_decide_probe_loop_witness :
    AgentZ.decide (AgentS.mk (AgentN.Z trivZ)).core.z = Decision.Action 0 ∧
    (MUTATION_LIMIT = 4 ∧
    (AgentS.mk (AgentN.Z trivZ)).decide =
      (let r := probeWith AgentN.decide MUTATION_LIMIT 0 (AgentS.mk (AgentN.Z trivZ)).core;
        (r.1, AgentS.mk r.2)) ∧
    (∀ core : AgentN Nat Nat Unit 0,
      probeWith AgentN.decide 0 0 core = (Decision.RequestModel, core)) ∧
    (∀ (fuel : Nat) (core : AgentN Nat Nat Unit 0),
      ((AgentN.decide (core.mutate).1).1 = Decision.RequestModel →
        probeWith AgentN.decide (fuel + 1) 0 core =
          probeWith AgentN.decide fuel 0
            ((AgentN.decide (core.mutate).1).2.undo (core.mutate).2)) ∧
      ((AgentN.decide (core.mutate).1).1 = Decision.Action 0 →
        probeWith AgentN.decide (fuel + 1) 0 core =
          (Decision.Action 0, (AgentN.decide (core.mutate).1).2.undo (core.mutate).2)) ∧
      (∀ b : Nat, (AgentN.decide (core.mutate).1).1 = Decision.Action b → b ≠ 0 →
        probeWith AgentN.decide (fuel + 1) 0 core =
          (Decision.RequestModel, (AgentN.decide (core.mutate).1).2.undo (core.mutate).2)))) :=
  ⟨rfl, agentS_decide_probe_loop (AgentS.mk (AgentN.Z trivZ)) 0 rfl⟩

/-- C2: safety monotonicity: if an agent with one more safety layer commits
`Action a`, the agent one layer down obtained via `dec()`, on the same base
model state, commits the same action or requests a model update — never a
different action. -/
theorem safety_monotonicity {M A D : Type} [DecidableEq A] {n : Nat}
    (a : AgentN M A D (n + 1)) (hu : UndoesMutate a.z.mutater a.z.undoer)
    (x : A) (hd : (a.decide).1 = Decision.Action x) :
    ((a.dec).decide).1 = Decision.Action x ∨ ((a.dec).decide).1 = Decision.RequestModel := by
  cases a with
  | S core =>
    have hx := AgentN.decide_action (AgentN.S core) x hd
    cases hc : ((core : AgentN M A D n).decide).1 with
    | RequestModel => exact Or.inr hc
    | Action y =>
      left
      have hy := AgentN.decide_action core y hc
      have hxy : y = x := hy.trans (show core.z.decider core.z.model = x from hx.symm)
      show ((core : AgentN M A D n).decide).1 = Decision.Action x
      rw [hc, hxy]

/-- Witness for C2: the one-layer trivial stack commits `Action 0` and its
`dec()` also commits `Action 0`. -/
theorem safety_monotonicity_witness :
    UndoesMutate (AgentN.z (trivZ.add 1)).mutater (AgentN.z (trivZ.add 1)).undoer ∧
    ((trivZ.add 1).decide).1 = Decision.Action 0 ∧
    ((((trivZ.add 1).dec).decide).1 = Decision.Action 0 ∨
      (((trivZ.add 1).dec).decide).1 = Decision.RequestModel) :=
  ⟨fun _ => rfl, rfl, safety_monotonicity (trivZ.add 1) (fun _ => rfl) 0 rfl⟩

/-- C4: mutate/undo round-trip: when the undoer exactly inverts the mutater,
`mutate()` immediately followed by `undo(delta)` leaves the stack in a state
whose `decide()` returns the same result as before the pair. -/
theorem mutate_undo_roundtrip_decide {M A D : Type} [DecidableEq A] {n : Nat}
    (a : AgentN M A D n) (hu : UndoesMutate a.z.mutater a.z.undoer) :
    (((a.mutate).1.undo (a.mutate).2).decide).1 = (a.decide).1 := by
  rw [AgentN.undo_mutate a hu]

/-- Witness for C4 at the two-layer trivial stack. -/
theorem mutate_undo_roundtrip_decide_witness :
    UndoesMutate (AgentN.z (trivZ.add 2)).mutater (AgentN.z (trivZ.add 2)).undoer ∧
    ((((trivZ.add 2).mutate).1.undo ((trivZ.add 2).mutate).2).decide).1 =
      ((trivZ.add 2).decide).1 :=
  ⟨fun _ => rfl, mutate_undo_roundtrip_decide (trivZ.add 2) (fun _ => rfl)⟩

/-- C5: idempotence of probing: when the undoer exactly inverts the mutater,
two consecutive `decide()` calls with no intervening `act` or `update_model`
return identical decisions. -/
theorem decide_idempotent {M A D : Type} [DecidableEq A] {n : Nat}
    (a : AgentN M A D n) (hu : UndoesMutate a.z.mutater a.z.undoer) :
    (((a.decide).2).decide).1 = (a.decide).1 := by
  rw [AgentN.decide_snd a hu]

/-- Witness for C5 at the two-layer trivial stack. -/
theorem decide_idempotent_witness :
    UndoesMutate (AgentN.z (trivZ.add 2)).mutater (AgentN.z (trivZ.add 2)).undoer ∧
    ((((trivZ.add 2).decide).2).decide).1 = ((trivZ.add 2).decide).1 :=
  ⟨fun _ => rfl, decide_idempotent (trivZ.add 2) (fun _ => rfl)⟩

/-- C6: a safety layer never substitutes its own action: whenever a layered
`decide()` returns `Action a`, the value `a` equals the base decider applied
to the current, unmutated innermost model. -/
theorem no_action_substitution {M A D : Type} [DecidableEq A] {n : Nat}
    (a : AgentN M A D n) (_hu : UndoesMutate a.z.mutater a.z.undoer) (y : A)
    (h : (a.decide).1 = Decision.Action y) :
    y = a.z.decider a.z.model :=
  AgentN.decide_action a y h

/-- Witness for C6 at the two-layer trivial stack. -/
theorem no_action_substitution_witness :
    UndoesMutate (AgentN.z (trivZ.add 2)).mutater (AgentN.z (trivZ.add 2)).undoer ∧
    ((trivZ.add 2).decide).1 = Decision.Action 0 ∧
    0 = (AgentN.z (trivZ.add 2)).decider (AgentN.z (trivZ.add 2)).model :=
  ⟨fun _ => rfl, rfl, no_action_substitution (trivZ.add 2) (fun _ => rfl) 0 rfl⟩

/-- C7: Peano correspondence: `add n` builds exactly `n` successor shells
around the unmodified base agent, `dec` applied `n` times returns the
original `Z` wrapper, and `inc` on `add n` equals `add (n + 1)`. -/
theorem peano_correspondence {M A D : Type} (z : AgentZ M A D) (n : Nat) :
    (z.add n).layers = n ∧
    (z.add n).z = z ∧
    HEq (AgentN.decIter n (z.add n)) (AgentN.Z z) ∧
    (z.add n).inc = z.add (n + 1) := by
  refine ⟨AgentN.layers_add z n, AgentN.z_add z n, ?_, rfl⟩
  rw [AgentN.decIter_add z n n, Nat.sub_self]
  exact HEq.rfl

/-- C8: single-model delegation and frame: each of `update_model`, `act`,
`mutate` and `undo` acts exactly once, via the base agent's corresponding
operation, on the single innermost model reached through `z()`, while the
wrapper structure (layer count) and the four stored operation functions are
unchanged; `update_model` unconditionally replaces the innermost model. -/
theorem single_model_delegation {M A D : Type} {n : Nat}
    (a : AgentN M A D n) (m : M) (x : A) (d : D) :
    (a.update_model m = a.zmodify (fun z => z.update_model m) ∧
      (a.update_model m).z.model = m) ∧
    (a.act x = a.zmodify (fun z => z.act x) ∧
      (a.act x).z.model = a.z.actor a.z.model x) ∧
    (a.undo d = a.zmodify (fun z => z.undo d) ∧
      (a.undo d).z.model = a.z.undoer a.z.model d) ∧
    (a.mutate = (a.zmodify (fun z => (AgentZ.mutate z).1), (AgentZ.mutate a.z).2) ∧
      ((a.mutate).1).z.model = (a.z.mutater a.z.model).1 ∧
      (a.mutate).2 = (a.z.mutater a.z.model).2) ∧
    ((a.update_model m).layers = a.layers ∧ (a.act x).layers = a.layers ∧
      (a.undo d).layers = a.layers ∧ ((a.mutate).1).layers = a.layers) ∧
    ((a.update_model m).z.decider = a.z.decider ∧ (a.update_model m).z.actor = a.z.actor ∧
      (a.update_model m).z.mutater = a.z.mutater ∧ (a.update_model m).z.undoer = a.z.undoer) ∧
    ((a.act x).z.decider = a.z.decider ∧ (a.act x).z.actor = a.z.actor ∧
      (a.act x).z.mutater = a.z.mutater ∧ (a.act x).z.undoer = a.z.undoer) ∧
    ((a.undo d).z.decider = a.z.decider ∧ (a.undo d).z.actor = a.z.actor ∧
      (a.undo d).z.mutater = a.z.mutater ∧ (a.undo d).z.undoer = a.z.undoer) ∧
    (((a.mutate).1).z.decider = a.z.decider ∧ ((a.mutate).1).z.actor = a.z.actor ∧
      ((a.mutate).1).z.mutater = a.z.mutater ∧ ((a.mutate).1).z.undoer = a.z.undoer) := by
  have hu := AgentN.update_model_eq_zmodify a m
  have ha := AgentN.act_eq_zmodify a x
  have hd2 := AgentN.undo_eq_zmodify a d
  have hm := AgentN.mutate_eq_zmodify a
  refine ⟨⟨hu, ?_⟩, ⟨ha, ?_⟩, ⟨hd2, ?_⟩, ⟨hm, ?_, ?_⟩, ?_, ?_, ?_, ?_, ?_⟩ <;>
    simp [hu, ha, hd2, hm, AgentN.z_zmodify, AgentN.layers_zmodify,
      AgentZ.update_model, AgentZ.act, AgentZ.undo, AgentZ.mutate]

/-- C9: the base agent always returns `Action(decider(model))` and never
requests a model update; consequently the `RequestModel` arm of the match in
`AgentS::decide` on the innermost base decision is unreachable:
`AgentS::decide` always equals its `Action` branch. -/
theorem agentZ_never_requests {M A D : Type} [DecidableEq A] :
    (∀ z : AgentZ M A D, z.decide = Decision.Action (z.decider z.model) ∧
      z.decide ≠ Decision.RequestModel) ∧
    (∀ {n : Nat} (s : AgentS M A D n),
      AgentZ.decide s.core.z ≠ Decision.RequestModel ∧
      s.decide = (let a := s.core.z.decider s.core.z.model;
        let r := probeWith AgentN.decide MUTATION_LIMIT a s.core;
        (r.1, AgentS.mk r.2))) := by
  constructor
  · intro z
    exact ⟨rfl, by simp [AgentZ.decide]⟩
  · intro n s
    exact ⟨by simp [AgentZ.decide], rfl⟩

/-- C3 counterexample: with one safety layer starting from the reference
model `(target, current) = (4, 0)`, two decide/act pairs reach
`current = 2` normally, but the next `decide()` returns `Action 1`, not
`RequestModel` as the claim states. -/
theorem scenario_one_layer_cex :
    ((zTest.add 1).decide).1 = Decision.Action 1 ∧
    ((((zTest.add 1).decide).2.act 1).decide).1 = Decision.Action 1 ∧
    (((((zTest.add 1).decide).2.act 1).decide).2.act 1).z.model = (4, 2) ∧
    ¬ (((((((zTest.add 1).decide).2.act 1).decide).2.act 1).decide).1
        = Decision.RequestModel) := by
  decide

/-- C3 amended: in the reference scenario, with 0 layers successive
decide/act pairs drive current 0→1→2→3→4 with `decide` returning `Action 1`
until current equals target and `Action 0` thereafter; with 1 layer
decide/act proceeds normally through current = 3 and the next `decide()`
returns `RequestModel`; with 2 layers escalation to `RequestModel` occurs
one step earlier, at the current = 1 → 2 transition. -/
theorem scenario_amended :
    (let s1 := ((zTest.add 0).decide).2.act 1;
     let s2 := (s1.decide).2.act 1;
     let s3 := (s2.decide).2.act 1;
     let s4 := (s3.decide).2.act 1;
     ((zTest.add 0).decide).1 = Decision.Action 1 ∧ s1.z.model = (4, 1) ∧
       (s1.decide).1 = Decision.Action 1 ∧ s2.z.model = (4, 2) ∧
       (s2.decide).1 = Decision.Action 1 ∧ s3.z.model = (4, 3) ∧
       (s3.decide).1 = Decision.Action 1 ∧ s4.z.model = (4, 4) ∧
       (s4.decide).1 = Decision.Action 0 ∧
       ((s4.decide).2.act 0).z.model = (4, 4) ∧
       (((s4.decide).2.act 0).decide).1 = Decision.Action 0) ∧
    (let t1 := ((zTest.add 1).decide).2.act 1;
     let t2 := (t1.decide).2.act 1;
     let t3 := (t2.decide).2.act 1;
     ((zTest.add 1).decide).1 = Decision.Action 1 ∧ t1.z.model = (4, 1) ∧
       (t1.decide).1 = Decision.Action 1 ∧ t2.z.model = (4, 2) ∧
       (t2.decide).1 = Decision.Action 1 ∧ t3.z.model = (4, 3) ∧
       (t3.decide).1 = Decision.RequestModel) ∧
    (let u1 := ((zTest.add 2).decide).2.act 1;
     let u2 := (u1.decide).2.act 1;
     ((zTest.add 2).decide).1 = Decision.Action 1 ∧ u1.z.model = (4, 1) ∧
       (u1.decide).1 = Decision.Action 1 ∧ u2.z.model = (4, 2) ∧
       (u2.decide).1 = Decision.RequestModel) := by
  decide

/-- The probe loop instrumented with the number of base decider invocations
performed by the core decision procedure it drives; identical control
structure to `probeWith`, with counts summed across iterations. -/
def probeWithCnt {M A D : Type} [DecidableEq A] {n : Nat}
    (dc : AgentN M A D n → (Decision A × AgentN M A D n) × Nat) :
    Nat → A → AgentN M A D n → (Decision A × AgentN M A D n) × Nat
  | 0, _, core => ((.RequestModel, core), 0)
  | fuel + 1, a, core =>
    let p := core.mutate
    let q := dc p.1
    let core3 := q.1.2.undo p.2
    match q.1.1 with
    | .RequestModel =>
      let r := probeWithCnt dc fuel a core3
      (r.1, q.2 + r.2)
    | .Action b =>
      if a = b then ((.Action a, core3), q.2) else ((.RequestModel, core3), q.2)

/-- `AgentN.decide` instrumented with the number of invocations of the
user-supplied decider: each `AgentZ::decide` call counts one, including the
`self.core.z().decide()` call at the head of `AgentS::decide`. -/
def AgentN.decideCnt {M A D : Type} [DecidableEq A] :
    {n : Nat} → AgentN M A D n → (Decision A × AgentN M A D n) × Nat :=
  fun {n} =>
    Nat.rec (motive := fun k => AgentN M A D k → (Decision A × AgentN M A D k) × Nat)
      (fun a =>
        match a with
        | .Z agent => ((agent.decide, .Z agent), 1))
      (fun _ ih a =>
        match a with
        | .S core =>
          match AgentZ.decide core.z with
          | .RequestModel => ((.RequestModel, .S core), 1)
          | .Action x =>
            let r := probeWithCnt ih MUTATION_LIMIT x core
            ((r.1.1, .S r.1.2), 1 + r.2))
      n

/-- Unfolding equation for `decideCnt` at a successor layer. -/
theorem AgentN.decideCnt_S {M A D : Type} [DecidableEq A] {n : Nat}
    (core : AgentN M A D n) :
    AgentN.decideCnt (AgentN.S core) =
      (match AgentZ.decide core.z with
       | .RequestModel => ((Decision.RequestModel, AgentN.S core), 1)
       | .Action x =>
         let r := probeWithCnt AgentN.decideCnt MUTATION_LIMIT x core
         ((r.1.1, AgentN.S r.1.2), 1 + r.2)) := rfl

/-- The instrumented probe loop computes the same decision and state as the
uninstrumented one when the core procedures agree. -/
theorem probeWithCnt_fst {M A D : Type} [DecidableEq A] {n : Nat}
    (dcC : AgentN M A D n → (Decision A × AgentN M A D n) × Nat)
    (dc : AgentN M A D n → Decision A × AgentN M A D n)
    (hd : ∀ c, (dcC c).1 = dc c) (fuel : Nat) (x : A) (core : AgentN M A D n) :
    (probeWithCnt dcC fuel x core).1 = probeWith dc fuel x core := by
  induction fuel generalizing core with
  | zero => rfl
  | succ fuel ih =>
    simp only [probeWithCnt, probeWith, hd]
    cases hq : (dc (core.mutate).1).1 with
    | RequestModel =>
      simp only [hq]
      exact ih _
    | Action b =>
      simp only [hq]
      by_cases hxb : x = b <;> simp [hxb]

/-- The instrumented `decideCnt` computes the same decision and state as
`decide`. -/
theorem AgentN.decideCnt_fst {M A D : Type} [DecidableEq A] :
    ∀ {n : Nat} (a : AgentN M A D n), (a.decideCnt).1 = a.decide := by
  intro n
  induction n with
  | zero =>
    intro a
    cases a with
    | Z agent => rfl
  | succ n ih =>
    intro a
    cases a with
    | S core =>
      have hp := probeWithCnt_fst AgentN.decideCnt AgentN.decide (fun c => ih c)
        MUTATION_LIMIT (core.z.decider core.z.model) core
      show ((probeWithCnt AgentN.decideCnt MUTATION_LIMIT (core.z.decider core.z.model) core).1.1,
          AgentN.S (probeWithCnt AgentN.decideCnt MUTATION_LIMIT
            (core.z.decider core.z.model) core).1.2)
        = ((probeWith AgentN.decide MUTATION_LIMIT (core.z.decider core.z.model) core).1,
          AgentN.S (probeWith AgentN.decide MUTATION_LIMIT
            (core.z.decider core.z.model) core).2)
      rw [hp]

/-- A base agent family whose decider output changes under every single
mutation: the decider is the identity and the mutater increments the model,
so every probe at one layer disagrees and every probe at two or more layers
is inconclusive. -/
def counterZ (m : Nat) : AgentZ Nat Nat Unit where
  model := m
  decider := fun k => k
  actor := fun k a => k + a
  mutater := fun k => (k + 1, ())
  undoer := fun k _ => k - 1

/-- Exact number of decider invocations performed by `decide` on the counter
family, by layer count. -/
def cCount : Nat → Nat
  | 0 => 1
  | 1 => 2
  | n + 2 => 1 + 4 * cCount (n + 1)

theorem counter_mutate (m : Nat) :
    ∀ n : Nat, ((counterZ m).add n).mutate = ((counterZ (m + 1)).add n, ())
  | 0 => rfl
  | n + 1 => by
    show (AgentN.S (((counterZ m).add n).mutate).1, (((counterZ m).add n).mutate).2) = _
    rw [counter_mutate m n]
    rfl

theorem counter_undo (m : Nat) (n : Nat) :
    ((counterZ (m + 1)).add n).undo () = (counterZ m).add n := by
  rw [AgentN.undo_eq_zmodify, AgentN.zmodify_add]
  rfl

/-- One disagreeing probe iteration at a single safety layer on the counter
family: the probe costs one decider call and escalates immediately. -/
theorem counter_probe_zero (fuel m : Nat) :
    probeWithCnt AgentN.decideCnt (fuel + 1) m (AgentN.Z (counterZ m)) =
      ((Decision.RequestModel, AgentN.Z (counterZ m)), 1) := by
  show (if m = m + 1 then ((Decision.Action m, AgentN.Z (counterZ m)), 1)
        else ((Decision.RequestModel, AgentN.Z (counterZ m)), 1)) = _
  rw [if_neg (Nat.ne_of_lt (Nat.lt_succ_self m))]

/-- One safety layer on the counter family: `decide` costs exactly two
decider invocations and requests a model update. -/
theorem counter_decideCnt_one (m : Nat) :
    AgentN.decideCnt ((counterZ m).add 1) =
      ((Decision.RequestModel, (counterZ m).add 1), 2) := by
  have h := counter_probe_zero 3 m
  show (((probeWithCnt AgentN.decideCnt (3 + 1) m (AgentN.Z (counterZ m))).1.1,
         AgentN.S ((probeWithCnt AgentN.decideCnt (3 + 1) m (AgentN.Z (counterZ m))).1.2)),
        1 + (probeWithCnt AgentN.decideCnt (3 + 1) m (AgentN.Z (counterZ m))).2) =
      ((Decision.RequestModel, (counterZ m).add 1), 2)
  rw [h]
  rfl

/-- At two or more safety layers on the counter family, every probe
iteration is inconclusive, so the full probe budget is spent, at full inner
cost each time. -/
theorem counter_probe (n : Nat)
    (ihd : ∀ m : Nat, AgentN.decideCnt ((counterZ m).add (n + 1)) =
      ((Decision.RequestModel, (counterZ m).add (n + 1)), cCount (n + 1)))
    (x m : Nat) :
    ∀ fuel : Nat,
      probeWithCnt AgentN.decideCnt fuel x ((counterZ m).add (n + 1)) =
        ((Decision.RequestModel, (counterZ m).add (n + 1)), fuel * cCount (n + 1)) := by
  intro fuel
  induction fuel with
  | zero => simp [probeWithCnt]
  | succ fuel ih =>
    simp only [probeWithCnt, counter_mutate m (n + 1), ihd, counter_undo m (n + 1), ih]
    have harith : cCount (n + 1) + fuel * cCount (n + 1) = (fuel + 1) * cCount (n + 1) := by
      ring
    rw [harith]

/-- Exact decider-invocation count of `decide` on the counter family, for
one or more layers: `cCount` satisfies the recurrence
`cCount (n + 2) = 1 + 4 * cCount (n + 1)` with `cCount 1 = 2`. -/
theorem counter_decideCnt : ∀ (n m : Nat),
    AgentN.decideCnt ((counterZ m).add (n + 1)) =
      ((Decision.RequestModel, (counterZ m).add (n + 1)), cCount (n + 1)) := by
  intro n
  induction n with
  | zero => exact counter_decideCnt_one
  | succ n ih =>
    intro m
    have hp := counter_probe n ih m m MUTATION_LIMIT
    rw [show (counterZ m).add (n + 2) = AgentN.S ((counterZ m).add (n + 1)) from rfl,
      AgentN.decideCnt_S, AgentN.z_add]
    show (((probeWithCnt AgentN.decideCnt MUTATION_LIMIT m ((counterZ m).add (n + 1))).1.1,
           AgentN.S ((probeWithCnt AgentN.decideCnt MUTATION_LIMIT m
             ((counterZ m).add (n + 1))).1.2)),
          1 + (probeWithCnt AgentN.decideCnt MUTATION_LIMIT m ((counterZ m).add (n + 1))).2) =
        ((Decision.RequestModel, AgentN.S ((counterZ m).add (n + 1))), cCount (n + 1 + 1))
    rw [hp]
    rfl

theorem cCount_ge_pow : ∀ n : Nat, 4 ^ n ≤ cCount (n + 1) := by
  intro n
  induction n with
  | zero => decide
  | succ n ih =>
    have h : cCount (n + 2) = 1 + 4 * cCount (n + 1) := rfl
    rw [h, pow_succ]
    calc 4 ^ n * 4 ≤ cCount (n + 1) * 4 := Nat.mul_le_mul_right 4 ih
      _ = 4 * cCount (n + 1) := Nat.mul_comm _ _
      _ ≤ 1 + 4 * cCount (n + 1) := Nat.le_add_left _ _

theorem cCount_superlinear (c : Nat) : c * (c + 2) + c < cCount (c + 2) := by
  have h1 := cCount_ge_pow (c + 1)
  have h2 : c + 1 ≤ 2 ^ c := Nat.lt_two_pow c
  have h4 : (4 : Nat) ^ c = 2 ^ c * 2 ^ c := by
    rw [show (4 : Nat) = 2 * 2 from rfl, mul_pow]
  have h3 : (4 : Nat) ^ (c + 1) = 2 ^ c * 2 ^ c * 4 := by
    rw [pow_succ, h4]
  have h5 : (c + 1) * (c + 1) ≤ 2 ^ c * 2 ^ c := Nat.mul_le_mul h2 h2
  nlinarith [h1, h3, h5]

/-- C10 (refuted as stated): the instrumented `decideCnt` agrees with
`decide` and counts decider invocations; on the counter family the counts at
1, 2, 3 layers are 2, 9, 37 (the recurrence `1 + 4·count`), and for every
linear bound `c * n + c` there is a layer count whose cost exceeds it — the
worst-case number of decider invocations is exponential in the layer count,
not `O(N)`. -/
theorem decider_call_growth :
    (∀ (M A D : Type) [_inst : DecidableEq A] (n : Nat) (a : AgentN M A D n),
      (a.decideCnt).1 = a.decide) ∧
    (AgentN.decideCnt ((counterZ 0).add 1)).2 = 2 ∧
    (AgentN.decideCnt ((counterZ 0).add 2)).2 = 9 ∧
    (AgentN.decideCnt ((counterZ 0).add 3)).2 = 37 ∧
    ∀ c : Nat, ∃ n : Nat, (AgentN.decideCnt ((counterZ 0).add n)).2 > c * n + c := by
  refine ⟨fun M A D inst n a => AgentN.decideCnt_fst a, by decide, by decide, by decide, ?_⟩

  intro c
  refine ⟨c + 2, ?_⟩
  have h2 : (AgentN.decideCnt ((counterZ 0).add (c + 2))).2 = cCount (c + 2) := by
    show (AgentN.decideCnt ((counterZ 0).add (c + 1 + 1))).2 = cCount (c + 1 + 1)
    rw [counter_decideCnt (c + 1) 0]
  rw [h2]
  exact cCount_superlinear c
